import Mathlib

set_option maxRecDepth 16000
set_option maxHeartbeats 1000000

/-!
Verification development for the broken-link-checker script
(src/broken_link_checker.py). The crawl loop, the per-link status check,
the internal/external host classification and the report filters are
embedded as executable Lean definitions; the network and the HTML parser
are modelled as oracles (functions supplied as arguments), since the code
treats them as opaque effectful calls.
-/

namespace BLC

/-! ## String operations (models of the Python string primitives used) -/

/-- Model of Python str.strip: remove leading and trailing whitespace. -/
def pyStrip (s : String) : String :=
  String.mk (((s.data.dropWhile Char.isWhitespace).reverse.dropWhile Char.isWhitespace).reverse)

/-- Model of Python str.lower restricted to the ASCII range used here. -/
def pyLower (s : String) : String := String.mk (s.data.map Char.toLower)

/-- Model of Python str.startswith. -/
def strStarts (s pre : String) : Bool := pre.data.isPrefixOf s.data

/-- Occurrence of one character list inside another. -/
def charsContains (hay needle : List Char) : Bool :=
  match hay with
  | [] => needle.isEmpty
  | c :: t => needle.isPrefixOf (c :: t) || charsContains t needle

/-- Case-sensitive substring test: pandas Series.str.contains with a plain
alternation-free needle. -/
def strContainsCS (hay sub : String) : Bool := charsContains hay.data sub.data

/-- Case-insensitive substring test: pandas Series.str.contains with
case=False. -/
def strContainsCI (hay sub : String) : Bool :=
  charsContains (pyLower hay).data (pyLower sub).data

/-! ## URL parsing (model of urllib.parse.urlparse / urljoin for the URL
shapes that arise in this script: http(s) URLs, scheme-relative,
root-relative and path-relative href references; dot-segment
normalization is not modelled since no claim depends on it) -/

/-- Characters allowed in a URL scheme. -/
def schemeChar (c : Char) : Bool := c.isAlpha || c.isDigit || c == '+' || c == '-' || c == '.'

/-- Split a URL into its scheme (lowercased) and the remainder after the
colon; yields an empty scheme when no scheme is present, as urlparse does. -/
def schemeSplit (u : String) : String × String :=
  let pre := u.data.takeWhile schemeChar
  match pre.head? with
  | some c0 =>
    if c0.isAlpha ∧ (u.data.drop pre.length).head? = some ':' then
      (pyLower (String.mk pre), String.mk (u.data.drop (pre.length + 1)))
    else ("", u)
  | none => ("", u)

/-- Model of urlparse(u).scheme. -/
def urlScheme (u : String) : String := (schemeSplit u).1

/-- The netloc part of a character list that follows the scheme separator. -/
def netlocOf (rest : List Char) : List Char :=
  rest.takeWhile (fun c => c != '/' && c != '?' && c != '#')

/-- Model of urlparse(u).netloc. -/
def urlNetloc (u : String) : String :=
  let rest := (schemeSplit u).2.data
  if ['/', '/'].isPrefixOf rest then String.mk (netlocOf (rest.drop 2)) else ""

/-- Model of urlparse(u).path. -/
def urlPath (u : String) : String :=
  let rest := (schemeSplit u).2.data
  let rest2 := if ['/', '/'].isPrefixOf rest
    then (rest.drop 2).dropWhile (fun c => c != '/' && c != '?' && c != '#')
    else rest
  String.mk (rest2.takeWhile (fun c => c != '?' && c != '#'))

/-- Directory part of a path: everything up to and including the last
slash; the root when the path has no slash. -/
def dirOfPath (p : String) : String :=
  let r := p.data.reverse.dropWhile (fun c => c != '/')
  if r.isEmpty then "/" else String.mk r.reverse

/-- Model of urllib.parse.urljoin(base, href) for the reference shapes
listed above. An absolute href wins; otherwise the missing components are
inherited from the base page. -/
def urljoin (base href : String) : String :=
  if urlScheme href ≠ "" then href
  else if strStarts href "//" then urlScheme base ++ ":" ++ href
  else if strStarts href "/" then urlScheme base ++ "://" ++ urlNetloc base ++ href
  else urlScheme base ++ "://" ++ urlNetloc base ++ dirOfPath (urlPath base) ++ href

/-! ## Internal/external host classification -/

/-- Line 103: is_internal = link_domain == domain or
link_domain == "www." ++ domain. -/
def is_internal (link_domain domain : String) : Bool :=
  link_domain == domain || link_domain == "www." ++ domain

/-- Strip one leading "www." from a host name. -/
def stripWww (h : String) : String :=
  if strStarts h "www." then String.mk (h.data.drop 4) else h

/-- Modelled from the spec: a resolved URL is internal iff its host equals
the seed host with a leading "www." stripped from both sides, i.e. the
comparison is insensitive to a leading "www." on either side. Written from
the spec words for comparison with is_internal, which is the code. -/
def is_internal_spec (link_domain domain : String) : Bool :=
  stripWww link_domain == stripWww domain

/-! ## Link status checking (lines 112-141) -/

inductive Outcome
  | OK
  | Redirect
  | Broken
  | Error
deriving DecidableEq

/-- The Status Code column holds either a numeric HTTP code or a sentinel
string. -/
inductive CodeVal
  | num (n : Nat)
  | msg (s : String)
deriving DecidableEq

/-- Lines 118-125: the value bound to the local named code: a numeric
status when an attempt succeeded, or the literal sentinel string when both
attempts raised. -/
def codeVal : Option Nat → CodeVal
  | some n => .num n
  | none => .msg "Timeout / Connection Error"

/-- Lines 127-134: map the obtained code to the Status column string. -/
def status_str (code : Option Nat) (follow_redirects : Bool) : String :=
  match code with
  | some c =>
    if 400 ≤ c then "Broken"
    else if c = 301 ∨ c = 302 ∨ c = 307 ∨ c = 308 then
      if follow_redirects then "OK (redirect)" else "Redirect"
    else "OK"
  | none => "Error"

/-- Spec-level outcome kind carried by a Status string produced by
status_str. -/
def outcomeOfStatus (s : String) : Outcome :=
  if s = "Broken" then .Broken
  else if s = "Redirect" then .Redirect
  else if s = "Error" then .Error
  else .OK

/-- The network, as the checker sees it: for each URL and allow_redirects
flag, a HEAD or GET request either returns a status code or raises (none). -/
structure Net where
  head : String → Bool → Option Nat
  get : String → Bool → Option Nat

inductive Method
  | head
  | get
deriving DecidableEq

/-- Lines 112-125, instrumented: the status obtained together with the
trace of HTTP attempts made, each as (method, allow_redirects argument).
The HEAD probe honours follow_redirects; the fallback GET is
requests.get(url, timeout=8, stream=True), whose allow_redirects argument
is the requests default, True. -/
def checkLinkTrace (net : Net) (url : String) (follow_redirects : Bool) :
    Option Nat × List (Method × Bool) :=
  match net.head url follow_redirects with
  | some c => (some c, [(Method.head, follow_redirects)])
  | none =>
    match net.get url true with
    | some c => (some c, [(Method.head, follow_redirects), (Method.get, true)])
    | none => (none, [(Method.head, follow_redirects), (Method.get, true)])

/-- Lines 112-125: the obtained status (none when both attempts raised).
Total by construction: no exception escapes the check. -/
def checkLink (net : Net) (url : String) (follow_redirects : Bool) : Option Nat :=
  (checkLinkTrace net url follow_redirects).1

/-! ## Link records (one row of the results list) -/

structure LinkRecord where
  page : String
  link : String
  linkType : String
  statusCode : CodeVal
  status : String
  /-- Spec-level outcome kind of the row. The script encodes the outcome
  only in the Status string; this field is the model annotation used to
  state the claims about outcomes. -/
  outcome : Outcome
deriving DecidableEq

/-- Lines 136-142: the row appended for a checked link. -/
def linkRecord (page absUrl linkType : String) (code : Option Nat)
    (follow_redirects : Bool) : LinkRecord :=
  { page := page, link := absUrl, linkType := linkType, statusCode := codeVal code,
    status := status_str code follow_redirects,
    outcome := outcomeOfStatus (status_str code follow_redirects) }

/-- Lines 77-85: the row appended when the fetched page itself answers
with a status (reached only when 400 ≤ status; the ternary on line 83 is
kept as written). -/
def selfRecord (cur : String) (sc : Nat) : LinkRecord :=
  { page := cur, link := cur, linkType := "Self (page itself)", statusCode := .num sc,
    status := if 400 ≤ sc then "Broken" else "OK",
    outcome := if 400 ≤ sc then .Broken else .OK }

/-- Lines 154-161: the row appended when fetching the page raised; the
message is truncated to 60 characters as in str(e)[:60]. -/
def crawlFailRecord (cur m : String) : LinkRecord :=
  { page := cur, link := cur, linkType := "Page itself", statusCode := .msg "Error",
    status := "Failed to crawl (" ++ String.mk (m.data.take 60) ++ ")",
    outcome := .Error }

/-! ## Crawl model (lines 40-163) -/

/-- The configuration collected from the input widgets (lines 24-38). -/
structure Config where
  start_url : String
  max_pages : Nat
  check_external : Bool
  follow_redirects : Bool

/-- What requests.get(current_url, timeout=12, allow_redirects=True) plus
HTML parsing yields for a page: a status code with the href attributes of
the anchors in document order, or a raised transport error. -/
inductive PageResult
  | ok (status : Nat) (hrefs : List String)
  | exn (msg : String)
deriving DecidableEq

/-- The crawler state of lines 50-62. visited is kept as an
insertion-ordered duplicate-free list standing for the Python set;
dequeued is a ghost field recording every URL popped from the head of
to_visit on line 65, used only to state properties. -/
structure CrawlState where
  visited : List String
  to_visit : List String
  results : List LinkRecord
  page_count : Nat
  dequeued : List String
deriving DecidableEq

/-- Lines 91-93: hrefs that are skipped as non-navigational. -/
def skipHref (href : String) : Bool :=
  href == "" || strStarts href "#" || strStarts href "mailto:" ||
    strStarts href "tel:" || strStarts href "javascript:"

/-- Lines 90-142 for a single anchor: the row appended for this raw href,
or none when the href is skipped (empty or non-navigational, non-http(s)
scheme, or external while external checking is off). -/
def hrefRecord (cfg : Config) (net : Net) (domain cur : String)
    (rawHref : String) : Option LinkRecord :=
  let href := pyStrip rawHref
  if skipHref href then none
  else
    let abs_url := urljoin cur href
    if ¬(urlScheme abs_url = "http" ∨ urlScheme abs_url = "https") then none
    else
      let isInt := is_internal (urlNetloc abs_url) domain
      if ¬cfg.check_external ∧ ¬isInt then none
      else
        some (linkRecord cur abs_url (if isInt then "Internal" else "External")
          (checkLink net abs_url cfg.follow_redirects) cfg.follow_redirects)

/-- Lines 90-148: the body of the for-loop over anchors, threading the
(results, to_visit) pair. When the href qualifies, its row is appended
(hrefRecord is exactly the record built on lines 136-142), and the
resolved URL is enqueued when it is internal and in neither visited nor
to_visit (line 147). -/
def processHref (cfg : Config) (net : Net) (domain cur : String)
    (visited : List String) (acc : List LinkRecord × List String)
    (rawHref : String) : List LinkRecord × List String :=
  match hrefRecord cfg net domain cur rawHref with
  | none => acc
  | some r =>
    let abs_url := urljoin cur (pyStrip rawHref)
    (acc.1 ++ [r],
      if is_internal (urlNetloc abs_url) domain ∧ abs_url ∉ visited ∧ abs_url ∉ acc.2
      then acc.2 ++ [abs_url] else acc.2)

/-- Lines 65-161: one iteration of the while loop after popping cur from
the head of to_visit. The already-visited guard of line 67, the page fetch
with its two failure modes, and the anchor loop. -/
def crawlStep (cfg : Config) (net : Net) (fetch : String → PageResult)
    (domain : String) (s : CrawlState) (cur : String) (rest : List String) :
    CrawlState :=
  if cur ∈ s.visited then
    { s with to_visit := rest, dequeued := s.dequeued ++ [cur] }
  else
    let s1 : CrawlState :=
      { visited := s.visited ++ [cur], to_visit := rest, results := s.results,
        page_count := s.page_count + 1, dequeued := s.dequeued ++ [cur] }
    match fetch cur with
    | .exn m => { s1 with results := s1.results ++ [crawlFailRecord cur m] }
    | .ok sc hrefs =>
      if 400 ≤ sc then { s1 with results := s1.results ++ [selfRecord cur sc] }
      else
        let p := hrefs.foldl (processHref cfg net domain cur s1.visited)
          (s1.results, s1.to_visit)
        { s1 with results := p.1, to_visit := p.2 }

/-- Lines 64-161: the while loop, driven by a fuel counter large enough to
reach the terminal state; every intermediate state is crawlLoop at some
smaller fuel. -/
def crawlLoop (cfg : Config) (net : Net) (fetch : String → PageResult)
    (domain : String) : Nat → CrawlState → CrawlState
  | 0, s => s
  | fuel + 1, s =>
    match s.to_visit with
    | [] => s
    | cur :: rest =>
      if s.page_count < cfg.max_pages then
        crawlLoop cfg net fetch domain fuel (crawlStep cfg net fetch domain s cur rest)
      else s

/-- Lines 50-53: the initial crawler state. -/
def initState (cfg : Config) : CrawlState :=
  { visited := [], to_visit := [pyStrip cfg.start_url], results := [],
    page_count := 0, dequeued := [] }

/-- Line 53: domain = urlparse(start_url).netloc. -/
def crawlDomain (cfg : Config) : String := urlNetloc cfg.start_url

/-- The record emitted for a page whose fetch failed: the transport-error
row of lines 155-161 or the self row of lines 78-84. -/
def pageFailureRecord (cur : String) : PageResult → LinkRecord
  | .exn m => crawlFailRecord cur m
  | .ok sc _ => selfRecord cur sc

/-! ## Report views (lines 175-183) -/

/-- Line 177: membership in the broken view is a case-insensitive
substring match against the regex Broken|Error|Timeout on the Status text. -/
def brokenFilter (r : LinkRecord) : Bool :=
  strContainsCI r.status "Broken" || strContainsCI r.status "Error" ||
    strContainsCI r.status "Timeout"

/-- Line 178: membership in the redirects view is a case-sensitive
substring match for Redirect on the Status text. -/
def redirectFilter (r : LinkRecord) : Bool := strContainsCS r.status "Redirect"

def broken_df (rs : List LinkRecord) : List LinkRecord := rs.filter brokenFilter

def redirect_df (rs : List LinkRecord) : List LinkRecord := rs.filter redirectFilter

/-! ## Concrete environments used by witnesses and counterexamples -/

/-- A network where both the probe and the fallback raise. -/
def deadNet : Net := { head := fun _ _ => none, get := fun _ _ => none }

/-- A server that answers the HEAD probe with 405 Method Not Allowed but
would answer a GET with 200. -/
def head405Net : Net := { head := fun _ _ => some 405, get := fun _ _ => some 200 }

/-- A server whose HEAD raises and whose GET answers 301 when redirects
are not followed but 200 (the final target) when they are. -/
def redirNet : Net :=
  { head := fun _ _ => none, get := fun _ b => if b then some 200 else some 301 }

/-- A server that answers every request with 200. -/
def okNet : Net := { head := fun _ _ => some 200, get := fun _ _ => some 200 }

def fragCfg : Config :=
  { start_url := "https://ex.com", max_pages := 10,
    check_external := false, follow_redirects := true }

/-- A site whose seed page links to the same path once without and once
with a fragment suffix. -/
def fragFetch (u : String) : PageResult :=
  if u = "https://ex.com" then .ok 200 ["https://ex.com/p", "https://ex.com/p#s"]
  else .ok 200 []

/-- A fetch oracle that always raises. -/
def failFetch : String → PageResult := fun _ => PageResult.exn "boom"

/-! ## Theorems -/

/-- Helper: no string equals itself with extra characters appended in
front. -/
theorem ne_cat_self (pre x : String) (h : pre.length ≠ 0) : x ≠ pre ++ x := by
  intro he
  have hl := congrArg String.length he
  rw [String.length_append] at hl
  omega

/-- C1 counterexample: with seed host www.example.com, the bare host
example.com is classified external by the code (line 103) although the
two hosts agree once a leading www. is stripped from both sides, and
although the mirrored pair (seed example.com, link www.example.com) is
classified internal. -/
theorem is_internal_www_asymmetry_counterexample :
    is_internal "example.com" "www.example.com" = false
    ∧ is_internal_spec "example.com" "www.example.com" = true
    ∧ is_internal "www.example.com" "example.com" = true := by decide

/-- C1 (amended): the classification is one-sided, not symmetric: a link
host is internal exactly when it equals the seed host verbatim or equals
the seed host with "www." prepended; prepending "www." on the link side is
always internal, while the bare host is always external when the seed host
itself carries the "www." prefix. -/
theorem is_internal_one_sided : ∀ link_domain domain : String,
    (is_internal link_domain domain = true ↔
      link_domain = domain ∨ link_domain = "www." ++ domain)
    ∧ is_internal ("www." ++ domain) domain = true
    ∧ is_internal domain ("www." ++ domain) = false := by
  intro l d
  have h1 : d ≠ "www." ++ d := ne_cat_self "www." d (by decide)
  have h2 : d ≠ "www." ++ ("www." ++ d) := by
    intro he
    have hl := congrArg String.length he
    rw [String.length_append, String.length_append] at hl
    have h4 : ("www." : String).length = 4 := rfl
    omega
  refine ⟨?_, ?_, ?_⟩
  · simp [is_internal]
  · simp [is_internal]
  · simp [is_internal, h1, h2]

/-- C2 counterexample: when both attempts raise, the record carries the
literal sentinel "Timeout / Connection Error" (line 125), not the value
"transport error" named by the claim. -/
theorem transport_sentinel_counterexample :
    checkLink deadNet "https://a.com/x" true = none
    ∧ codeVal (checkLink deadNet "https://a.com/x" true)
        = CodeVal.msg "Timeout / Connection Error"
    ∧ status_str (checkLink deadNet "https://a.com/x" true) true = "Error"
    ∧ "Timeout / Connection Error" ≠ "transport error" := by
  refine ⟨rfl, rfl, rfl, by decide⟩

/-- C2 (amended): for the status obtained by the link check, the outcome
is Broken iff the status is a numeric code at least 400; Redirect iff the
status is one of 301, 302, 307, 308 and redirect tolerance is off (with
tolerance on each such code yields outcome OK); Error iff no numeric
status was obtained, in which case the record carries the non-numeric
sentinel "Timeout / Connection Error" instead of a code. -/
theorem outcome_classification : ∀ (code : Option Nat) (fr : Bool),
    (outcomeOfStatus (status_str code fr) = Outcome.Broken
      ↔ ∃ n, code = some n ∧ 400 ≤ n)
    ∧ (outcomeOfStatus (status_str code fr) = Outcome.Redirect
      ↔ fr = false ∧ ∃ n, code = some n ∧ (n = 301 ∨ n = 302 ∨ n = 307 ∨ n = 308))
    ∧ (outcomeOfStatus (status_str code fr) = Outcome.Error ↔ code = none)
    ∧ outcomeOfStatus (status_str (some 301) true) = Outcome.OK
    ∧ outcomeOfStatus (status_str (some 302) true) = Outcome.OK
    ∧ outcomeOfStatus (status_str (some 307) true) = Outcome.OK
    ∧ outcomeOfStatus (status_str (some 308) true) = Outcome.OK
    ∧ codeVal none = CodeVal.msg "Timeout / Connection Error" := by
  intro code fr
  refine ⟨?_, ?_, ?_, by decide, by decide, by decide, by decide, rfl⟩
  · constructor
    · intro h
      rcases code with _ | n
      · rw [show status_str none fr = "Error" from rfl] at h
        exact absurd h (by decide)
      · refine ⟨n, rfl, ?_⟩
        by_contra h4
        by_cases hr : n = 301 ∨ n = 302 ∨ n = 307 ∨ n = 308
        · cases fr
          · rw [show status_str (some n) false = "Redirect" by
              simp [status_str, h4, hr]] at h
            exact absurd h (by decide)
          · rw [show status_str (some n) true = "OK (redirect)" by
              simp [status_str, h4, hr]] at h
            exact absurd h (by decide)
        · rw [show status_str (some n) fr = "OK" by simp [status_str, h4, hr]] at h
          exact absurd h (by decide)
    · rintro ⟨n, rfl, h4⟩
      rw [show status_str (some n) fr = "Broken" by simp [status_str, h4]]
      decide
  · constructor
    · intro h
      rcases code with _ | n
      · rw [show status_str none fr = "Error" from rfl] at h
        exact absurd h (by decide)
      · by_cases h4 : 400 ≤ n
        · rw [show status_str (some n) fr = "Broken" by simp [status_str, h4]] at h
          exact absurd h (by decide)
        · by_cases hr : n = 301 ∨ n = 302 ∨ n = 307 ∨ n = 308
          · cases fr
            · exact ⟨rfl, n, rfl, hr⟩
            · rw [show status_str (some n) true = "OK (redirect)" by
                simp [status_str, h4, hr]] at h
              exact absurd h (by decide)
          · rw [show status_str (some n) fr = "OK" by simp [status_str, h4, hr]] at h
            exact absurd h (by decide)
    · rintro ⟨hfr, n, rfl, hr⟩
      subst hfr
      have h4 : ¬ 400 ≤ n := by omega
      rw [show status_str (some n) false = "Redirect" by simp [status_str, h4, hr]]
      decide
  · constructor
    · intro h
      rcases code with _ | n
      · rfl
      · exfalso
        by_cases h4 : 400 ≤ n
        · rw [show status_str (some n) fr = "Broken" by simp [status_str, h4]] at h
          exact absurd h (by decide)
        · by_cases hr : n = 301 ∨ n = 302 ∨ n = 307 ∨ n = 308
          · cases fr
            · rw [show status_str (some n) false = "Redirect" by
                simp [status_str, h4, hr]] at h
              exact absurd h (by decide)
            · rw [show status_str (some n) true = "OK (redirect)" by
                simp [status_str, h4, hr]] at h
              exact absurd h (by decide)
          · rw [show status_str (some n) fr = "OK" by simp [status_str, h4, hr]] at h
            exact absurd h (by decide)
    · rintro rfl
      rw [show status_str none fr = "Error" from rfl]
      decide

/-- C3 counterexample: a remote that does not support the probe by
answering it with 405 Method Not Allowed does not trigger the GET
fallback: the probe status is used directly and the link is reported
Broken, although a GET would have answered 200. -/
theorem probe_status_no_fallback_counterexample :
    (checkLinkTrace head405Net "https://a.com/x" true).2 = [(Method.head, true)]
    ∧ checkLink head405Net "https://a.com/x" true = some 405
    ∧ head405Net.get "https://a.com/x" true = some 200
    ∧ status_str (checkLink head405Net "https://a.com/x" true) true = "Broken" := by
  refine ⟨rfl, rfl, rfl, by decide⟩

/-- C3 (amended): the check makes at most two attempts: a HEAD probe
first, and a GET fallback exactly when the probe raises at the transport
level (a probe answered with any status code, 405 included, is used
directly with no fallback); the outcome is Error only when both attempts
raise, and the check is a total function, so no exception propagates. -/
theorem checkLink_two_attempts : ∀ (net : Net) (url : String) (fr : Bool),
    ((checkLinkTrace net url fr).2
      = match net.head url fr with
        | some _ => [(Method.head, fr)]
        | none => [(Method.head, fr), (Method.get, true)])
    ∧ (checkLinkTrace net url fr).2.length ≤ 2
    ∧ ((checkLinkTrace net url fr).1 = none
      ↔ net.head url fr = none ∧ net.get url true = none)
    ∧ checkLink net url fr = (checkLinkTrace net url fr).1 := by
  intro net url fr
  rcases hh : net.head url fr with _ | c
  · rcases hg : net.get url true with _ | c2 <;>
      simp [checkLinkTrace, checkLink, hh, hg]
  · simp [checkLinkTrace, checkLink, hh]

/-- C10: when the HEAD probe raises, the fallback GET is issued with
allow_redirects = true regardless of the redirect-tolerance setting (the
requests.get default on line 122), the obtained status is whatever the
redirect-following GET returns, and a redirecting URL whose final target
answers 200 is therefore classified OK even with tolerance off. -/
theorem fallback_follows_redirects (net : Net) (url : String) (fr : Bool)
    (h : net.head url fr = none) :
    (checkLinkTrace net url fr).2 = [(Method.head, fr), (Method.get, true)]
    ∧ checkLink net url fr = net.get url true
    ∧ (net.get url true = some 200 → status_str (checkLink net url fr) fr = "OK") := by
  have htr : checkLinkTrace net url fr
      = (net.get url true, [(Method.head, fr), (Method.get, true)]) := by
    rcases hg : net.get url true with _ | c <;> simp [checkLinkTrace, h, hg]
  refine ⟨by rw [htr], by rw [checkLink, htr], ?_⟩
  intro h200
  rw [checkLink, htr, h200]
  simp [status_str]

/-- Witness for C10 at a concrete redirecting server. -/
theorem fallback_follows_redirects_witness :
    redirNet.head "https://a.com/x" false = none
    ∧ ((checkLinkTrace redirNet "https://a.com/x" false).2
        = [(Method.head, false), (Method.get, true)]
      ∧ checkLink redirNet "https://a.com/x" false = redirNet.get "https://a.com/x" true
      ∧ (redirNet.get "https://a.com/x" true = some 200 →
          status_str (checkLink redirNet "https://a.com/x" false) false = "OK")) :=
  ⟨rfl, fallback_follows_redirects redirNet "https://a.com/x" false rfl⟩

/-! ## Crawl-loop lemmas -/

/-- Processing one anchor appends exactly the row given by hrefRecord. -/
theorem processHref_fst (cfg : Config) (net : Net) (domain cur : String)
    (visited : List String) (acc : List LinkRecord × List String) (h : String) :
    (processHref cfg net domain cur visited acc h).1
      = acc.1 ++ (hrefRecord cfg net domain cur h).toList := by
  cases hr : hrefRecord cfg net domain cur h <;> simp [processHref, hr]

/-- Processing one anchor preserves: the frontier is duplicate-free and
contains no already-visited URL. -/
theorem processHref_to_visit (cfg : Config) (net : Net) (domain cur : String)
    (visited : List String) (acc : List LinkRecord × List String) (h : String)
    (h1 : acc.2.Nodup) (h2 : ∀ u ∈ acc.2, u ∉ visited) :
    (processHref cfg net domain cur visited acc h).2.Nodup
    ∧ ∀ u ∈ (processHref cfg net domain cur visited acc h).2, u ∉ visited := by
  cases hr : hrefRecord cfg net domain cur h with
  | none => simpa [processHref, hr] using ⟨h1, h2⟩
  | some r =>
    simp only [processHref, hr]
    split_ifs with hc
    · obtain ⟨hint, hnv, hnt⟩ := hc
      constructor
      · simp [List.nodup_append, h1, hnt]
      · intro u hu
        rcases List.mem_append.mp hu with hm | hm
        · exact h2 u hm
        · rw [List.mem_singleton.mp hm]
          exact hnv
    · exact ⟨h1, h2⟩

/-- The anchor loop appends one row per qualifying href occurrence, in
order, independently of the accumulator. -/
theorem foldl_processHref_fst (cfg : Config) (net : Net) (domain cur : String)
    (visited : List String) :
    ∀ (hs : List String) (acc : List LinkRecord × List String),
    (hs.foldl (processHref cfg net domain cur visited) acc).1
      = acc.1 ++ hs.filterMap (hrefRecord cfg net domain cur) := by
  intro hs
  induction hs with
  | nil => intro acc; simp
  | cons h t ih =>
    intro acc
    rw [List.foldl_cons, ih, processHref_fst, List.filterMap_cons]
    cases hrefRecord cfg net domain cur h <;> simp

/-- The anchor loop preserves the frontier invariants. -/
theorem foldl_processHref_to_visit (cfg : Config) (net : Net)
    (domain cur : String) (visited : List String) :
    ∀ (hs : List String) (acc : List LinkRecord × List String),
    acc.2.Nodup → (∀ u ∈ acc.2, u ∉ visited) →
    (hs.foldl (processHref cfg net domain cur visited) acc).2.Nodup
    ∧ ∀ u ∈ (hs.foldl (processHref cfg net domain cur visited) acc).2, u ∉ visited := by
  intro hs
  induction hs with
  | nil => intro acc h1 h2; exact ⟨h1, h2⟩
  | cons h t ih =>
    intro acc h1 h2
    rw [List.foldl_cons]
    obtain ⟨h1x, h2x⟩ := processHref_to_visit cfg net domain cur visited acc h h1 h2
    exact ih _ h1x h2x

/-- Equation: the defensive line 67 skip when cur is already visited. -/
theorem crawlStep_skip (cfg : Config) (net : Net) (fetch : String → PageResult)
    (domain : String) (s : CrawlState) (cur : String) (rest : List String)
    (hcur : cur ∈ s.visited) :
    crawlStep cfg net fetch domain s cur rest
      = { s with to_visit := rest, dequeued := s.dequeued ++ [cur] } := by
  unfold crawlStep
  rw [if_pos hcur]

/-- Equation: the page fetch raised (lines 154-161). -/
theorem crawlStep_exn (cfg : Config) (net : Net) (fetch : String → PageResult)
    (domain : String) (s : CrawlState) (cur : String) (rest : List String)
    (m : String) (hcur : cur ∉ s.visited) (hf : fetch cur = .exn m) :
    crawlStep cfg net fetch domain s cur rest =
      ⟨s.visited ++ [cur], rest, s.results ++ [crawlFailRecord cur m],
        s.page_count + 1, s.dequeued ++ [cur]⟩ := by
  unfold crawlStep
  rw [if_neg hcur, hf]

/-- Equation: the page answered with an error status (lines 77-85). -/
theorem crawlStep_ok_broken (cfg : Config) (net : Net)
    (fetch : String → PageResult) (domain : String) (s : CrawlState)
    (cur : String) (rest : List String) (sc : Nat) (hrefs : List String)
    (hcur : cur ∉ s.visited) (hf : fetch cur = .ok sc hrefs) (h4 : 400 ≤ sc) :
    crawlStep cfg net fetch domain s cur rest =
      ⟨s.visited ++ [cur], rest, s.results ++ [selfRecord cur sc],
        s.page_count + 1, s.dequeued ++ [cur]⟩ := by
  unfold crawlStep
  rw [if_neg hcur, hf]
  dsimp only
  rw [if_pos h4]

/-- Equation: the page loaded and its anchors were processed
(lines 87-148). -/
theorem crawlStep_ok_loaded (cfg : Config) (net : Net)
    (fetch : String → PageResult) (domain : String) (s : CrawlState)
    (cur : String) (rest : List String) (sc : Nat) (hrefs : List String)
    (hcur : cur ∉ s.visited) (hf : fetch cur = .ok sc hrefs) (h4 : ¬ 400 ≤ sc) :
    crawlStep cfg net fetch domain s cur rest =
      ⟨s.visited ++ [cur],
        (hrefs.foldl (processHref cfg net domain cur (s.visited ++ [cur]))
          (s.results, rest)).2,
        (hrefs.foldl (processHref cfg net domain cur (s.visited ++ [cur]))
          (s.results, rest)).1,
        s.page_count + 1, s.dequeued ++ [cur]⟩ := by
  unfold crawlStep
  rw [if_neg hcur, hf]
  dsimp only
  rw [if_neg h4]

/-- The state invariant maintained by the crawl loop: the frontier is
duplicate-free, no frontier URL is already visited, the size of the
visited set equals the page counter, the counter respects the budget, and
every visited URL was popped from the head of the frontier. -/
def Inv (cfg : Config) (s : CrawlState) : Prop :=
  s.to_visit.Nodup
  ∧ (∀ u ∈ s.to_visit, u ∉ s.visited)
  ∧ s.visited.length = s.page_count
  ∧ s.page_count ≤ cfg.max_pages
  ∧ (∀ u ∈ s.visited, u ∈ s.dequeued)

/-- One iteration preserves the invariant when the budget guard held. -/
theorem crawlStep_inv (cfg : Config) (net : Net) (fetch : String → PageResult)
    (domain : String) (s : CrawlState) (cur : String) (rest : List String)
    (hv : s.to_visit = cur :: rest) (hp : s.page_count < cfg.max_pages)
    (hI : Inv cfg s) : Inv cfg (crawlStep cfg net fetch domain s cur rest) := by
  obtain ⟨hnd, hfresh, hlen, _, hdeq⟩ := hI
  rw [hv] at hnd hfresh
  have hcur : cur ∉ s.visited := hfresh cur (by simp)
  obtain ⟨hcr, hrnd⟩ := List.nodup_cons.mp hnd
  have hrfresh : ∀ u ∈ rest, u ∉ s.visited := fun u hu => hfresh u (by simp [hu])
  have hrfresh2 : ∀ u ∈ rest, u ∉ s.visited ++ [cur] := by
    intro u hu hmem
    rcases List.mem_append.mp hmem with hm | hm
    · exact hrfresh u hu hm
    · rw [List.mem_singleton.mp hm] at hu
      exact hcr hu
  have hdeq2 : ∀ u ∈ s.visited ++ [cur], u ∈ s.dequeued ++ [cur] := by
    intro u hmem
    rcases List.mem_append.mp hmem with hm | hm
    · exact List.mem_append.mpr (Or.inl (hdeq u hm))
    · exact List.mem_append.mpr (Or.inr hm)
  cases hf : fetch cur with
  | exn m =>
    rw [crawlStep_exn cfg net fetch domain s cur rest m hcur hf]
    exact ⟨hrnd, hrfresh2, by simp [hlen], by dsimp only; omega, hdeq2⟩
  | ok sc hrefs =>
    by_cases h4 : 400 ≤ sc
    · rw [crawlStep_ok_broken cfg net fetch domain s cur rest sc hrefs hcur hf h4]
      exact ⟨hrnd, hrfresh2, by simp [hlen], by dsimp only; omega, hdeq2⟩
    · rw [crawlStep_ok_loaded cfg net fetch domain s cur rest sc hrefs hcur hf h4]
      obtain ⟨ha, hb⟩ := foldl_processHref_to_visit cfg net domain cur
        (s.visited ++ [cur]) hrefs (s.results, rest) hrnd hrfresh2
      exact ⟨ha, hb, by simp [hlen], by dsimp only; omega, hdeq2⟩

/-- The crawl loop preserves the invariant from any state. -/
theorem crawlLoop_inv (cfg : Config) (net : Net) (fetch : String → PageResult)
    (domain : String) :
    ∀ (fuel : Nat) (s : CrawlState), Inv cfg s →
      Inv cfg (crawlLoop cfg net fetch domain fuel s) := by
  intro fuel
  induction fuel with
  | zero => intro s hI; exact hI
  | succ n ih =>
    intro s hI
    rw [crawlLoop]
    cases hv : s.to_visit with
    | nil => exact hI
    | cons cur rest =>
      dsimp only
      by_cases hp : s.page_count < cfg.max_pages
      · rw [if_pos hp]
        exact ih _ (crawlStep_inv cfg net fetch domain s cur rest hv hp hI)
      · rw [if_neg hp]
        exact hI

/-- The initial state satisfies the invariant. -/
theorem initState_inv (cfg : Config) : Inv cfg (initState cfg) := by
  refine ⟨?_, ?_, ?_, ?_, ?_⟩ <;> simp [initState]

/-- One iteration only appends to the results list. -/
theorem crawlStep_results (cfg : Config) (net : Net) (fetch : String → PageResult)
    (domain : String) (s : CrawlState) (cur : String) (rest : List String) :
    ∃ t, (crawlStep cfg net fetch domain s cur rest).results = s.results ++ t := by
  by_cases hcur : cur ∈ s.visited
  · rw [crawlStep_skip cfg net fetch domain s cur rest hcur]
    exact ⟨[], by simp⟩
  · cases hf : fetch cur with
    | exn m =>
      rw [crawlStep_exn cfg net fetch domain s cur rest m hcur hf]
      exact ⟨[crawlFailRecord cur m], rfl⟩
    | ok sc hrefs =>
      by_cases h4 : 400 ≤ sc
      · rw [crawlStep_ok_broken cfg net fetch domain s cur rest sc hrefs hcur hf h4]
        exact ⟨[selfRecord cur sc], rfl⟩
      · rw [crawlStep_ok_loaded cfg net fetch domain s cur rest sc hrefs hcur hf h4]
        exact ⟨hrefs.filterMap (hrefRecord cfg net domain cur),
          foldl_processHref_fst cfg net domain cur (s.visited ++ [cur]) hrefs _⟩

/-- The crawl loop only appends to the results list. -/
theorem crawlLoop_results (cfg : Config) (net : Net) (fetch : String → PageResult)
    (domain : String) :
    ∀ (fuel : Nat) (s : CrawlState),
    ∃ t, (crawlLoop cfg net fetch domain fuel s).results = s.results ++ t := by
  intro fuel
  induction fuel with
  | zero => exact fun s => ⟨[], by simp [crawlLoop]⟩
  | succ n ih =>
    intro s
    rw [crawlLoop]
    cases hv : s.to_visit with
    | nil => exact ⟨[], by simp⟩
    | cons cur rest =>
      dsimp only
      by_cases hp : s.page_count < cfg.max_pages
      · rw [if_pos hp]
        obtain ⟨t1, h1⟩ := crawlStep_results cfg net fetch domain s cur rest
        obtain ⟨t2, h2⟩ := ih (crawlStep cfg net fetch domain s cur rest)
        exact ⟨t1 ++ t2, by rw [h2, h1, List.append_assoc]⟩
      · rw [if_neg hp]
        exact ⟨[], by simp⟩

/-- The five Status strings status_str can produce. -/
theorem status_str_cases (code : Option Nat) (fr : Bool) :
    status_str code fr = "Broken" ∨ status_str code fr = "Redirect"
    ∨ status_str code fr = "OK (redirect)" ∨ status_str code fr = "OK"
    ∨ status_str code fr = "Error" := by
  rcases code with _ | n
  · right; right; right; right; rfl
  · by_cases h4 : 400 ≤ n
    · left; simp [status_str, h4]
    · by_cases hr : n = 301 ∨ n = 302 ∨ n = 307 ∨ n = 308
      · cases fr
        · right; left; simp [status_str, h4, hr]
        · right; right; left; simp [status_str, h4, hr]
      · right; right; right; left; simp [status_str, h4, hr]

/-- On the five link Status strings, the report filters coincide with the
outcome kinds. -/
theorem status_filter_facts : ∀ s0 : String,
    (s0 = "Broken" ∨ s0 = "Redirect" ∨ s0 = "OK (redirect)" ∨ s0 = "OK"
      ∨ s0 = "Error") →
    ((strContainsCI s0 "Broken" || strContainsCI s0 "Error"
        || strContainsCI s0 "Timeout") = true
      ↔ (outcomeOfStatus s0 = Outcome.Broken ∨ outcomeOfStatus s0 = Outcome.Error))
    ∧ (strContainsCS s0 "Redirect" = true ↔ outcomeOfStatus s0 = Outcome.Redirect) := by
  rintro s0 (rfl | rfl | rfl | rfl | rfl) <;> exact ⟨by decide, by decide⟩

/-- C4: at every reachable point of the crawl, the frontier holds no URL
twice, and holds no URL of the visited set; since visited only grows, a
URL is never appended to the frontier once it has entered the visited set
(line 147 guards every append with membership tests against both). -/
theorem frontier_nodup_and_disjoint (cfg : Config) (net : Net)
    (fetch : String → PageResult) (domain : String) (fuel : Nat) :
    (crawlLoop cfg net fetch domain fuel (initState cfg)).to_visit.Nodup
    ∧ (crawlLoop cfg net fetch domain fuel (initState cfg)).to_visit.Disjoint
        (crawlLoop cfg net fetch domain fuel (initState cfg)).visited := by
  obtain ⟨h1, h2, -, -, -⟩ :=
    crawlLoop_inv cfg net fetch domain fuel (initState cfg) (initState_inv cfg)
  exact ⟨h1, fun a ha hav => h2 a ha hav⟩

/-- C5: at every reachable point of the crawl, hence also at termination,
the visited set holds at most max_pages URLs, and every visited URL was
previously popped from the head of the frontier (the dequeued ghost field
records exactly the heads popped on line 65). -/
theorem visited_within_budget_and_dequeued (cfg : Config) (net : Net)
    (fetch : String → PageResult) (domain : String) (fuel : Nat) :
    (crawlLoop cfg net fetch domain fuel (initState cfg)).visited.length
        ≤ cfg.max_pages
    ∧ (crawlLoop cfg net fetch domain fuel (initState cfg)).visited
        ⊆ (crawlLoop cfg net fetch domain fuel (initState cfg)).dequeued := by
  obtain ⟨-, -, h3, h4, h5⟩ :=
    crawlLoop_inv cfg net fetch domain fuel (initState cfg) (initState_inv cfg)
  refine ⟨by rw [h3]; exact h4, fun a ha => h5 a ha⟩

/-- C6 counterexample: with the seed page linking to the same path once
bare and once with a fragment suffix, both resolved URLs enter the
frontier and both are visited: the visited set ends with three members,
so URLs differing only in their fragment are not the same page for the
visited set. -/
theorem fragment_pages_visited_twice :
    (crawlLoop fragCfg okNet fragFetch (crawlDomain fragCfg) 10
        (initState fragCfg)).visited
      = ["https://ex.com", "https://ex.com/p", "https://ex.com/p#s"] := by decide

/-- C6 (amended): page identity for the visited set and the frontier is
the exact resolved URL string, fragment included: a URL that differs from
an already-visited URL only by a fragment suffix is a distinct page, so it
is not skipped by the line 67 guard and is fetched and visited again. -/
theorem fragment_distinct_identity (cfg : Config) (net : Net)
    (fetch : String → PageResult) (domain u frag : String) (rest : List String)
    (rs : List LinkRecord) (pc : Nat) (dq : List String) :
    ((crawlStep cfg net fetch domain
        ⟨[u], (u ++ "#" ++ frag) :: rest, rs, pc, dq⟩ (u ++ "#" ++ frag) rest).visited
      = [u, u ++ "#" ++ frag])
    ∧ ((crawlStep cfg net fetch domain
        ⟨[u], (u ++ "#" ++ frag) :: rest, rs, pc, dq⟩ (u ++ "#" ++ frag) rest).page_count
      = pc + 1) := by
  have hne : u ++ "#" ++ frag ≠ u := by
    intro he
    have hl := congrArg String.length he
    rw [String.length_append, String.length_append] at hl
    have h1 : ("#" : String).length = 1 := rfl
    omega
  have hnv : u ++ "#" ++ frag
      ∉ (⟨[u], (u ++ "#" ++ frag) :: rest, rs, pc, dq⟩ : CrawlState).visited := by
    simp [hne]
  cases hf : fetch (u ++ "#" ++ frag) with
  | exn m =>
    rw [crawlStep_exn cfg net fetch domain
      ⟨[u], (u ++ "#" ++ frag) :: rest, rs, pc, dq⟩ (u ++ "#" ++ frag) rest m hnv hf]
    exact ⟨rfl, rfl⟩
  | ok sc hrefs =>
    by_cases h4 : 400 ≤ sc
    · rw [crawlStep_ok_broken cfg net fetch domain
        ⟨[u], (u ++ "#" ++ frag) :: rest, rs, pc, dq⟩ (u ++ "#" ++ frag) rest
        sc hrefs hnv hf h4]
      exact ⟨rfl, rfl⟩
    · rw [crawlStep_ok_loaded cfg net fetch domain
        ⟨[u], (u ++ "#" ++ frag) :: rest, rs, pc, dq⟩ (u ++ "#" ++ frag) rest
        sc hrefs hnv hf h4]
      exact ⟨rfl, rfl⟩

/-- C7: a dequeued unvisited page whose fetch raises or answers with a
status of 400 or more yields exactly one appended record whose source and
target are both that page URL, recorded as errored or broken; no link
extraction happens (the new frontier is just the popped tail), and the
loop recurses, so the crawl continues. -/
theorem failed_page_single_record (cfg : Config) (net : Net)
    (fetch : String → PageResult) (domain : String) (fuel : Nat)
    (vis rest : List String) (cur : String) (rs : List LinkRecord) (pc : Nat)
    (dq : List String) (m : String) (sc : Nat) (hrefs : List String)
    (hp : pc < cfg.max_pages) (hv : cur ∉ vis)
    (hf : fetch cur = PageResult.exn m
      ∨ (fetch cur = PageResult.ok sc hrefs ∧ 400 ≤ sc)) :
    crawlLoop cfg net fetch domain (fuel + 1) ⟨vis, cur :: rest, rs, pc, dq⟩
      = crawlLoop cfg net fetch domain fuel
          ⟨vis ++ [cur], rest, rs ++ [pageFailureRecord cur (fetch cur)],
            pc + 1, dq ++ [cur]⟩
    ∧ (pageFailureRecord cur (fetch cur)).page = cur
    ∧ (pageFailureRecord cur (fetch cur)).link = cur
    ∧ ((pageFailureRecord cur (fetch cur)).outcome = Outcome.Broken
        ∨ (pageFailureRecord cur (fetch cur)).outcome = Outcome.Error) := by
  have hloop : crawlLoop cfg net fetch domain (fuel + 1) ⟨vis, cur :: rest, rs, pc, dq⟩
      = crawlLoop cfg net fetch domain fuel
          (crawlStep cfg net fetch domain ⟨vis, cur :: rest, rs, pc, dq⟩ cur rest) := by
    rw [crawlLoop]
    dsimp only
    rw [if_pos hp]
  rcases hf with hf | ⟨hf, h4⟩
  · rw [hf]
    refine ⟨?_, rfl, rfl, Or.inr rfl⟩
    rw [hloop, crawlStep_exn cfg net fetch domain
      ⟨vis, cur :: rest, rs, pc, dq⟩ cur rest m hv hf]
    rfl
  · rw [hf]
    refine ⟨?_, rfl, rfl, Or.inl ?_⟩
    · rw [hloop, crawlStep_ok_broken cfg net fetch domain
        ⟨vis, cur :: rest, rs, pc, dq⟩ cur rest sc hrefs hv hf h4]
      rfl
    · dsimp only [pageFailureRecord, selfRecord]
      rw [if_pos h4]

/-- Witness for C7 at a concrete page whose fetch raises. -/
theorem failed_page_single_record_witness :
    (0 < fragCfg.max_pages ∧ ("https://a.com" : String) ∉ ([] : List String)
      ∧ failFetch "https://a.com" = PageResult.exn "boom")
    ∧ (crawlLoop fragCfg okNet failFetch "ex.com" (0 + 1)
          ⟨[], "https://a.com" :: [], [], 0, []⟩
        = crawlLoop fragCfg okNet failFetch "ex.com" 0
            ⟨[] ++ ["https://a.com"], [],
              [] ++ [pageFailureRecord "https://a.com" (failFetch "https://a.com")],
              0 + 1, [] ++ ["https://a.com"]⟩
      ∧ (pageFailureRecord "https://a.com" (failFetch "https://a.com")).page
          = "https://a.com"
      ∧ (pageFailureRecord "https://a.com" (failFetch "https://a.com")).link
          = "https://a.com"
      ∧ ((pageFailureRecord "https://a.com" (failFetch "https://a.com")).outcome
            = Outcome.Broken
        ∨ (pageFailureRecord "https://a.com" (failFetch "https://a.com")).outcome
            = Outcome.Error)) :=
  ⟨⟨by decide, by decide, rfl⟩,
    failed_page_single_record fragCfg okNet failFetch "ex.com" 0 [] []
      "https://a.com" [] 0 [] "boom" 500 [] (by decide) (by decide) (Or.inl rfl)⟩

/-- C8 counterexample: the record for a page-level transport failure whose
message is the requests text for a redirect loop has outcome Error, yet the
broken view, a substring match over the Status text, does not contain it. -/
theorem broken_view_misses_transport_failure :
    (crawlFailRecord "https://ex.com" "Exceeded 30 redirects.").outcome
        = Outcome.Error
    ∧ brokenFilter (crawlFailRecord "https://ex.com" "Exceeded 30 redirects.") = false
    ∧ broken_df [crawlFailRecord "https://ex.com" "Exceeded 30 redirects."] = [] := by
  refine ⟨rfl, by decide, by decide⟩

/-- C8 (amended): the report views are substring filters on the Status
text. On link records they coincide with the outcome kinds: the broken
view holds exactly those with outcome Broken or Error, the redirects view
exactly those with outcome Redirect. Records for pages answering 400 or
more are in the broken view and not in the redirects view. The
pages-crawled metric equals the size of the visited set, which equals the
number of pages processed. (Page-level transport-failure records are
included in the broken view only when their message text happens to
contain broken, error or timeout, as the counterexample shows.) -/
theorem report_views_characterization :
    (∀ (page url ltype : String) (code : Option Nat) (fr : Bool),
      (brokenFilter (linkRecord page url ltype code fr) = true
        ↔ ((linkRecord page url ltype code fr).outcome = Outcome.Broken
           ∨ (linkRecord page url ltype code fr).outcome = Outcome.Error))
      ∧ (redirectFilter (linkRecord page url ltype code fr) = true
        ↔ (linkRecord page url ltype code fr).outcome = Outcome.Redirect))
    ∧ (∀ (cur : String) (sc : Nat),
        (brokenFilter (selfRecord cur sc) = true ↔ 400 ≤ sc)
        ∧ redirectFilter (selfRecord cur sc) = false)
    ∧ (∀ (rs : List LinkRecord) (r : LinkRecord),
        (r ∈ broken_df rs ↔ r ∈ rs ∧ brokenFilter r = true)
        ∧ (r ∈ redirect_df rs ↔ r ∈ rs ∧ redirectFilter r = true))
    ∧ (∀ (cfg : Config) (net : Net) (fetch : String → PageResult)
        (domain : String) (fuel : Nat),
        (crawlLoop cfg net fetch domain fuel (initState cfg)).visited.length
          = (crawlLoop cfg net fetch domain fuel (initState cfg)).page_count) := by
  refine ⟨?_, ?_, ?_, ?_⟩
  · intro page url ltype code fr
    exact status_filter_facts (status_str code fr) (status_str_cases code fr)
  · intro cur sc
    by_cases h4 : 400 ≤ sc
    · refine ⟨⟨fun _ => h4, fun _ => ?_⟩, ?_⟩
      · simp only [brokenFilter, selfRecord, if_pos h4]
        decide
      · simp only [redirectFilter, selfRecord, if_pos h4]
        decide
    · refine ⟨⟨fun hb => ?_, fun hc => absurd hc h4⟩, ?_⟩
      · exfalso
        rw [show brokenFilter (selfRecord cur sc) = false by
          simp only [brokenFilter, selfRecord, if_neg h4]; decide] at hb
        exact Bool.false_ne_true hb
      · simp only [redirectFilter, selfRecord, if_neg h4]
        decide
  · intro rs r
    constructor <;> simp [broken_df, redirect_df, List.mem_filter]
  · intro cfg net fetch domain fuel
    obtain ⟨-, -, h3, -, -⟩ :=
      crawlLoop_inv cfg net fetch domain fuel (initState cfg) (initState_inv cfg)
    exact h3

/-- C9: the anchor loop appends exactly one record per qualifying href
occurrence (hrefRecord is some exactly when the trimmed href is
navigational, resolves to an http or https URL, and is internal or
external with external checking on), duplicates included, one per
occurrence in document order; and the whole crawl only ever appends to the
results list, so no record is removed. -/
theorem results_one_record_per_qualifying_href :
    (∀ (cfg : Config) (net : Net) (domain cur : String) (visited : List String)
        (rs : List LinkRecord) (tv : List String) (hs : List String),
      (hs.foldl (processHref cfg net domain cur visited) (rs, tv)).1
        = rs ++ hs.filterMap (hrefRecord cfg net domain cur))
    ∧ (∀ (cfg : Config) (net : Net) (fetch : String → PageResult) (domain : String)
        (fuel : Nat) (s : CrawlState),
      ∃ t, (crawlLoop cfg net fetch domain fuel s).results = s.results ++ t) := by
  constructor
  · intro cfg net domain cur visited rs tv hs
    exact foldl_processHref_fst cfg net domain cur visited hs (rs, tv)
  · intro cfg net fetch domain fuel s
    exact crawlLoop_results cfg net fetch domain fuel s

end BLC
